import Mathlib

/-!
Verification of the DeepPoseRobot dataset build pipeline
(`robotpose/building.py`, `robotpose/dataset.py`) against its
natural-language specification.

The Python code is shallowly embedded: numpy arrays of frames become
`List`s of rows, h5py containers become a `Container` structure, and
fallible operations return `Except BuildError`.  External collaborators
that the build treats as black boxes (the segmentation model, the `crop`
worker function, the host core count) are parameters of the embedded
pipeline, mirroring how the source consumes them.
-/

namespace RobotPose

/-! ## Batched multiprocess cropping (`Builder._segment_images_and_maps`)

The source partitions the frame index range into batches with
`range(0, self.length, batch_size)`, truncates the final batch via
`batch_size = self.length - start` when `start + batch_size >= self.length`
(the mutated value is carried into later loop iterations, though the
`range` step stays fixed), maps the worker function over each batch with
`multiprocessing.Pool.starmap`, and scatters each batch output back by
local offset (`crop_outputs[idx - start]`) into preallocated zero arrays.
-/

/-- CPython `Pool.starmap` splits its argument list into contiguous chunks
(each worker receives whole chunks) and concatenates the chunk results in
submission order.  `chunkedFuel` peels chunks of `n` off the front; the
fuel argument (instantiated with the list length, which bounds the number
of chunks) only makes the recursion structural. -/
def chunkedFuel (n : ℕ) : ℕ → List α → List (List α)
  | _, [] => []
  | 0, xs => [xs]
  | fuel + 1, x :: rest =>
    if n = 0 then [x :: rest]
    else (x :: rest).take n :: chunkedFuel n fuel ((x :: rest).drop n)

/-- The chunks of size `n` of a list; chunk size `0` degenerates to a
single chunk, as in CPython where a chunk size below 1 is clamped. -/
def chunked (n : ℕ) (xs : List α) : List (List α) :=
  chunkedFuel n xs.length xs

/-- `Pool.starmap f xs` with `nw` worker processes: CPython computes a chunk
size from `divmod(len(xs), nw * 4)`, farms the chunks out, and returns the
per-item results in the order the items were submitted. -/
def poolStarmap (f : α → β) (nw : ℕ) (xs : List α) : List β :=
  ((chunked
      (if xs.length % (nw * 4) = 0 then xs.length / (nw * 4)
       else xs.length / (nw * 4) + 1) xs).map (fun c => c.map f)).flatten

/-- The write-back loop
`for idx in range(start, start + batch_size): out[idx] = vals[idx - start]`:
sequentially store `vals` into `out` beginning at position `i`. -/
def scatter : List β → ℕ → List β → List β
  | out, _, [] => out
  | out, i, v :: vs => scatter (out.set i v) (i + 1) vs

/-- One iteration of the batch loop body: truncate the carried batch size on
the final batch, gather the batch inputs, run the pool, scatter the outputs
back at the batch offset.  The state is the output list being filled plus
the (mutable in the source) `batch_size` variable. -/
def cropBatchStep (f : α → β) (nw : ℕ) (inputs : List α)
    (st : List β × ℕ) (start : ℕ) : List β × ℕ :=
  let bs := if inputs.length ≤ start + st.2 then inputs.length - start else st.2
  let crop_inputs := (inputs.drop start).take bs
  let crop_outputs := poolStarmap f nw crop_inputs
  (scatter st.1 start crop_outputs, bs)

/-- The batched cropping stage: the output array is preallocated with
`np.zeros` (modelled by the zero row `z`), the batch starts are
`range(0, length, bs0)`, and each batch is processed by `cropBatchStep`.
The source fixes `bs0 = 100` and `nw = workerCount()`. -/
def cropBatched (f : α → β) (z : β) (nw bs0 : ℕ) (inputs : List α) : List β :=
  let N := inputs.length
  let numBatches := (N + bs0 - 1) / bs0
  ((List.range' 0 numBatches bs0).foldl (cropBatchStep f nw inputs)
    (List.replicate N z, bs0)).1

/-- Modelled from the spec: the sequential reference semantics of the
cropping stage — apply the Cropper to every frame in index order
(batch size 1, a single worker). -/
def cropSequentialSpec (f : α → β) (inputs : List α) : List β :=
  inputs.map f

theorem chunkedFuel_flatten (n : ℕ) : ∀ (fuel : ℕ) (ys : List α),
    (chunkedFuel n fuel ys).flatten = ys := by
  intro fuel
  induction fuel with
  | zero =>
    intro ys
    cases ys with
    | nil => rfl
    | cons y rest => simp [chunkedFuel]
  | succ m ih =>
    intro ys
    cases ys with
    | nil => rfl
    | cons y rest =>
      rw [chunkedFuel]
      by_cases hn : n = 0
      · simp [hn]
      · simp only [hn, if_false, List.flatten_cons, ih]
        exact List.take_append_drop n (y :: rest)

theorem chunked_flatten (n : ℕ) (xs : List α) : (chunked n xs).flatten = xs :=
  chunkedFuel_flatten n xs.length xs

theorem poolStarmap_eq_map (f : α → β) (nw : ℕ) (xs : List α) :
    poolStarmap f nw xs = xs.map f := by
  unfold poolStarmap
  rw [← List.map_flatten, chunked_flatten]

theorem scatter_length (vs : List β) : ∀ (out : List β) (i : ℕ),
    (scatter out i vs).length = out.length := by
  induction vs with
  | nil => intro out i; rfl
  | cons v vs ih => intro out i; rw [scatter, ih, List.length_set]

theorem scatter_eq (vs : List β) : ∀ (out : List β) (i : ℕ),
    i + vs.length ≤ out.length →
    scatter out i vs = out.take i ++ vs ++ out.drop (i + vs.length) := by
  induction vs with
  | nil =>
    intro out i h
    simp [scatter, List.take_append_drop]
  | cons v vs ih =>
    intro out i h
    have hi : i < out.length := by simp at h; omega
    rw [scatter, ih _ (i + 1) (by simp [List.length_set]; simp at h; omega)]
    rw [List.set_eq_take_cons_drop v hi]
    have ht : (out.take i).length = i := by
      simp [List.length_take]; omega
    have e1 : (out.take i ++ v :: out.drop (i + 1)).take (i + 1)
        = out.take i ++ [v] := by
      rw [List.take_append_eq_append_take, ht]
      have : (out.take i).take (i + 1) = out.take i :=
        List.take_of_length_le (by omega)
      rw [this]
      simp
    have e2 : (out.take i ++ v :: out.drop (i + 1)).drop (i + 1 + vs.length)
        = out.drop (i + 1 + vs.length) := by
      rw [List.drop_append_eq_append_drop, ht]
      have h0 : (out.take i).drop (i + 1 + vs.length) = [] :=
        List.drop_eq_nil_of_le (by omega)
      rw [h0]
      have h1 : i + 1 + vs.length - i = vs.length + 1 := by omega
      rw [h1]
      simp [List.drop_drop]
    rw [e1, e2]
    have h2 : i + (v :: vs).length = i + 1 + vs.length := by simp; omega
    rw [h2]
    simp

theorem le_ceilDiv_mul (N bs : ℕ) (h : 0 < bs) : N ≤ ((N + bs - 1) / bs) * bs := by
  rcases Nat.eq_zero_or_pos N with h0 | h0
  · simp [h0]
  · have h1 := Nat.div_add_mod (N + bs - 1) bs
    have h2 : (N + bs - 1) % bs < bs := Nat.mod_lt _ h
    rw [Nat.mul_comm]
    generalize hq : (N + bs - 1) / bs = q at h1
    generalize hr : (N + bs - 1) % bs = r at h1 h2
    generalize bs * q = t at h1 ⊢
    omega

theorem ceilDiv_pred_mul_lt (N bs : ℕ) (h : 0 < bs) (hN : 0 < N) :
    ((N + bs - 1) / bs - 1) * bs < N := by
  have he : N + bs - 1 = (N - 1) + bs := by omega
  rw [he, Nat.add_div_right _ h, Nat.add_sub_cancel]
  have := Nat.div_mul_le_self (N - 1) bs
  omega

theorem cropBatched_loop (f : α → β) (z : β) (nw bs0 : ℕ) (inputs : List α) :
    ∀ (k s : ℕ),
      (0 < k → s + (k - 1) * bs0 < inputs.length) →
      inputs.length ≤ s + k * bs0 →
      ((List.range' s k bs0).foldl (cropBatchStep f nw inputs)
        ((inputs.map f).take s ++ List.replicate (inputs.length - s) z, bs0)).1
        = inputs.map f := by
  intro k
  induction k with
  | zero =>
    intro s h1 h2
    simp only [List.range', List.foldl_nil]
    have hN : inputs.length ≤ s := by simpa using h2
    rw [List.take_of_length_le (by simpa using hN), Nat.sub_eq_zero_of_le hN]
    simp
  | succ k ih =>
    intro s h1 h2
    have hsN : s < inputs.length := by
      have := h1 (Nat.succ_pos k)
      have hle : s ≤ s + k * bs0 := Nat.le_add_right _ _
      omega
    have hout_len : ((inputs.map f).take s
        ++ List.replicate (inputs.length - s) z).length = inputs.length := by
      simp [List.length_take, List.length_replicate]
      omega
    rw [List.range'_succ, List.foldl_cons]
    rcases Nat.eq_zero_or_pos k with hk0 | hkpos
    · -- final batch: the truncation branch fires and covers [s, N)
      subst hk0
      have hcond : inputs.length ≤ s + bs0 := by simpa using h2
      simp only [cropBatchStep, hcond, if_true, if_pos hcond]
      rw [poolStarmap_eq_map]
      have htk : (inputs.drop s).take (inputs.length - s) = inputs.drop s := by
        apply List.take_of_length_le
        simp [List.length_drop]
      rw [htk, List.map_drop]
      have hlen2 : s + ((inputs.map f).drop s).length
          = ((inputs.map f).take s ++ List.replicate (inputs.length - s) z).length := by
        simp [List.length_drop, List.length_take, List.length_replicate]
        omega
      rw [scatter_eq _ _ _ (le_of_eq hlen2)]
      rw [List.take_append_of_le_length (by simp [List.length_take]; omega)]
      rw [List.take_take, min_self]
      rw [hlen2, List.drop_length]
      simp only [List.range', List.foldl_nil]
      simp [List.take_append_drop]
    · -- not the final batch: the carried batch size stays bs0
      have hcond : ¬ (inputs.length ≤ s + bs0) := by
        have hx := h1 (Nat.succ_pos k)
        have : s + 1 * bs0 ≤ s + k * bs0 := by
          have : 1 * bs0 ≤ k * bs0 := Nat.mul_le_mul_right _ hkpos
          omega
        simp at hx ⊢
        omega
      simp only [cropBatchStep, hcond, if_false, if_neg hcond]
      rw [poolStarmap_eq_map, List.map_take, List.map_drop]
      have hco_len : (((inputs.map f).drop s).take bs0).length = bs0 := by
        simp [List.length_take, List.length_drop]
        omega
      have hbound : s + (((inputs.map f).drop s).take bs0).length
          ≤ ((inputs.map f).take s ++ List.replicate (inputs.length - s) z).length := by
        rw [hco_len, hout_len]
        omega
      rw [scatter_eq _ _ _ hbound]
      rw [List.take_append_of_le_length (by simp [List.length_take]; omega)]
      rw [List.take_take, min_self]
      rw [hco_len]
      have hdrop : ((inputs.map f).take s
          ++ List.replicate (inputs.length - s) z).drop (s + bs0)
          = List.replicate (inputs.length - (s + bs0)) z := by
        rw [List.drop_append_eq_append_drop]
        have hts : ((inputs.map f).take s).length = s := by
          simp [List.length_take]; omega
        rw [hts]
        have h0 : ((inputs.map f).take s).drop (s + bs0) = [] :=
          List.drop_eq_nil_of_le (by rw [hts]; omega)
        rw [h0, List.drop_replicate]
        simp
        omega
      rw [hdrop]
      have hmerge : (inputs.map f).take s ++ ((inputs.map f).drop s).take bs0
          = (inputs.map f).take (s + bs0) := (List.take_add _ _ _).symm
      rw [hmerge]
      have hx := h1 (Nat.succ_pos k)
      rw [Nat.add_sub_cancel] at hx
      have he : bs0 + (k - 1) * bs0 = k * bs0 := by
        cases k with
        | zero => omega
        | succ m => rw [Nat.add_sub_cancel, Nat.succ_mul]; omega
      have he2 : (k + 1) * bs0 = k * bs0 + bs0 := Nat.succ_mul k bs0
      exact ih (s + bs0) (fun _ => by omega) (by omega)

theorem cropBatched_eq_map (f : α → β) (z : β) (nw bs0 : ℕ) (hbs : 0 < bs0)
    (inputs : List α) : cropBatched f z nw bs0 inputs = inputs.map f := by
  show (List.foldl (cropBatchStep f nw inputs)
      (List.replicate inputs.length z, bs0)
      (List.range' 0 ((inputs.length + bs0 - 1) / bs0) bs0)).1 = inputs.map f
  have h0 : (List.replicate inputs.length z : List β)
      = (inputs.map f).take 0 ++ List.replicate (inputs.length - 0) z := by simp
  rw [h0]
  apply cropBatched_loop
  · intro hk
    have hN : 0 < inputs.length := by
      by_contra hc
      have : inputs.length = 0 := by omega
      rw [this] at hk
      have : (0 + bs0 - 1) / bs0 = 0 := Nat.div_eq_of_lt (by omega)
      omega
    simpa using ceilDiv_pred_mul_lt inputs.length bs0 hbs hN
  · simpa using le_ceilDiv_mul inputs.length bs0 hbs

/-- C1: for every raw capture and every frame index, the batched
multiprocess cropping stage stores at global index `i` exactly the result
of applying the Cropper to frame `i`'s inputs, and the whole output equals
a sequential (batch size 1, single worker) application of the Cropper,
for every positive batch size and every worker count. -/
theorem crop_stage_order_preservation (f : α → β) (z : β) (nw bs0 : ℕ)
    (hbs : 0 < bs0) (inputs : List α) :
    (∀ i : ℕ, (cropBatched f z nw bs0 inputs)[i]? = (inputs[i]?).map f) ∧
    cropBatched f z nw bs0 inputs = cropSequentialSpec f inputs ∧
    cropBatched f z nw bs0 inputs = cropBatched f z 1 1 inputs := by
  have h := cropBatched_eq_map f z nw bs0 hbs inputs
  have h1 := cropBatched_eq_map f z 1 1 (by omega) inputs
  refine ⟨?_, ?_, ?_⟩
  · intro i
    rw [h, List.getElem?_map]
  · rw [h]
    rfl
  · rw [h, h1]

/-- Witness for C1: batch size 3 with 2 workers on a concrete 8-frame input
agrees with the sequential Cropper application. -/
theorem crop_stage_order_preservation_witness :
    cropBatched (fun n : ℤ => n * n) 0 2 3 [3, 1, 4, 1, 5, 9, 2, 6]
      = cropSequentialSpec (fun n : ℤ => n * n) [3, 1, 4, 1, 5, 9, 2, 6] :=
  (crop_stage_order_preservation (fun n : ℤ => n * n) 0 2 3 (by norm_num)
    [3, 1, 4, 1, 5, 9, 2, 6]).2.1

/-! ## Data model: frames, raw captures, containers

A container models the single `.h5` artifact written by the builder:
its scalar attributes and the ten per-frame arrays.  Numeric cell values
are modelled as integers (the claims under verification never depend on
floating-point rounding), timestamps as abstract ticks. -/

abbrev Pixel := ℤ × ℤ × ℤ

abbrev Image := List (List Pixel)

abbrev DepthMap := List (List ℤ)

abbrev PointMap := List (List Pixel)

abbrev Mask := List (List Bool)

abbrev Roi := List ℤ

/-- One entry of the `objects[0].joints` array of a per-frame JSON
document: a joint angle and a 3-component joint position. -/
structure JointInfo where
  angle : ℤ
  position : ℤ × ℤ × ℤ
deriving DecidableEq

/-- One per-frame JSON document, as read by `Builder._load_json_data`:
`realsense_info[0].{depth_scale, intrin_depth, intrin_color}` and the
`objects[0].joints` array (indexed `0..5` by the loader). -/
structure FrameJson where
  depth_scale : ℤ
  intrin_depth : String
  intrin_color : String
  joints : List JointInfo
deriving DecidableEq

/-- A raw capture directory: the file paths in the order `os.walk` yields
them, plus the content behind each path. -/
structure RawCapture where
  files : List String
  jsonContent : String → FrameJson
  depthContent : String → DepthMap
  imageContent : String → Image

/-- Everything the build can fail with.  `AssertionError`s in the source
are mapped to the error names the specification gives them; the remaining
constructors model exceptions raised by the numpy/h5py calls the source
makes: `ambiguousArrayTruth` is numpy's ValueError from truth-testing a
multi-element comparison array, `attrsNotWritable` the AttributeError
from assigning h5py's setter-less `attrs` property, `vstackShapeMismatch`
the shape error of `np.vstack`, `saveMissingVersionArg` the TypeError of
calling `_save_full()` without its required `ver` argument, and
`datasetNameExists` the `create_dataset` collision in an append-mode
file. -/
inductive BuildError where
  | inconsistentCapture
  | malformedCapture
  | inconsistentCamera
  | incompatibleDatasets
  | ambiguousArrayTruth
  | attrsNotWritable
  | vstackShapeMismatch
  | saveMissingVersionArg
  | datasetNameExists
deriving DecidableEq

/-- The container file written by `Builder._save_full`: scalar attributes
plus the ten per-frame datasets. -/
structure Container where
  name : String
  version : ℚ
  length : ℕ
  build_date : ℕ
  compile_date : ℕ
  compile_time : ℤ
  type : String
  original_resolution : List ℕ
  segmented_resolution : List ℕ
  depth_intrinsics : String
  color_intrinsics : String
  depth_scale : ℤ
  angles : List (List ℤ)
  positions : List (List (ℤ × ℤ × ℤ))
  depthmaps : List DepthMap
  pointmaps : List PointMap
  original : List Image
  segmented : List Image
  rois : List Roi
  path_jsons : List String
  path_depthmaps : List String
  path_images : List String
deriving DecidableEq

/-! ## Source scanner and JSON loader
(`Builder._get_filepaths_from_data_dir`, `Builder._load_json_data`) -/

/-- Python `s.endswith(suffix)`: suffix test on the character sequence. -/
def pyEndsWith (s suffix : String) : Bool :=
  decide (suffix.toList <:+ s.toList)

/-- `Builder._get_filepaths_from_data_dir`: three extension-filtered scans
of the walked file list, then
`assert len(jsons) == len(maps) == len(imgs)`; the recorded dataset length
is the image count.  Pairing between the three lists is purely positional:
no name-stem matching is performed. -/
def scanFiles (files : List String) :
    Except BuildError (List String × List String × List String) :=
  let jsons := files.filter (fun x => pyEndsWith x ".json")
  let maps := files.filter (fun x => pyEndsWith x ".npy")
  let imgs := files.filter (fun x => pyEndsWith x ".png")
  if jsons.length = maps.length ∧ maps.length = imgs.length then
    .ok (jsons, maps, imgs)
  else .error .inconsistentCapture

/-- The camera metadata and joint arrays produced by
`Builder._load_json_data`. -/
structure JsonData where
  angles : List (List ℤ)
  positions : List (List (ℤ × ℤ × ℤ))
  depth_scale : ℤ
  intrin_depth : String
  intrin_color : String
deriving DecidableEq

/-- `Builder._load_json_data`: reads `joints[0..5]` of every frame (an
`IndexError` on a short joints array is the spec's `MalformedCaptureError`),
collects the three camera values into Python sets (modelled by `dedup`),
and asserts each set has exactly one element; the unique element of each
singleton set (`set.pop()`) is recorded. -/
def loadJsonData (frames : List FrameJson) : Except BuildError JsonData :=
  if frames.all (fun fr => 6 ≤ fr.joints.length) then
    let ds := (frames.map (fun fr => fr.depth_scale)).dedup
    let di := (frames.map (fun fr => fr.intrin_depth)).dedup
    let dc := (frames.map (fun fr => fr.intrin_color)).dedup
    if ds.length = 1 ∧ di.length = 1 ∧ dc.length = 1 then
      .ok { angles := frames.map (fun fr => (fr.joints.take 6).map (fun j => j.angle)),
            positions := frames.map (fun fr => (fr.joints.take 6).map (fun j => j.position)),
            depth_scale := ds.headD 0,
            intrin_depth := di.headD "",
            intrin_color := dc.headD "" }
    else .error .inconsistentCamera
  else .error .malformedCapture

/-- `self.depthmap_arr *= self.depth_scale` applied to one loaded map. -/
def scaleDepthMap (dm : DepthMap) (s : ℤ) : DepthMap :=
  dm.map (fun row => row.map (fun v => v * s))

/-- The `.shape` of an image array: height, width, channel count. -/
def imageShape (img : Image) : List ℕ :=
  [img.length, (img.headD []).length, 3]

/-! ## Full build (`Builder.build_full` / `Builder._save_full`) -/

/-- The builder's accumulated per-frame state (`self.*` fields of
`Builder` once `_segment_images_and_maps` has run). -/
structure BuilderState where
  name : String
  length : ℕ
  jsons : List String
  maps : List String
  imgs : List String
  ang_arr : List (List ℤ)
  pos_arr : List (List (ℤ × ℤ × ℤ))
  depthmap_arr : List DepthMap
  pointmap : List PointMap
  orig_img_arr : List Image
  segmented_img_arr : List Image
  rois : List Roi
  intrin_depth : String
  intrin_color : String
  depth_scale : ℤ
deriving DecidableEq

/-- The in-memory stages of `Builder.build_full` after scanning and JSON
loading: `_load_imgs_and_depthmaps` (image/depth reads plus the depth-scale
multiplication) and `_segment_images_and_maps` (per-frame segmentation,
then the batched multiprocess crop with batch size 100 over `nw` workers).
The zero row passed to the crop stage models the `np.zeros` preallocation
of the output arrays. -/
def buildState (cap : RawCapture) (segmenter : Image → Mask × Roi)
    (crop : DepthMap × Image × Mask × Roi → Image × PointMap)
    (nw : ℕ) (dsName : String) (jsons maps imgs : List String)
    (jd : JsonData) : BuilderState :=
  let origs := imgs.map cap.imageContent
  let depthmaps := (maps.map cap.depthContent).map
    (fun dm => scaleDepthMap dm jd.depth_scale)
  let segRes := origs.map segmenter
  let masks := segRes.map (fun r => r.1)
  let rois := segRes.map (fun r => r.2)
  let cropped := cropBatched crop ([], []) nw 100
    (depthmaps.zip (origs.zip (masks.zip rois)))
  { name := dsName
    length := imgs.length
    jsons := jsons
    maps := maps
    imgs := imgs
    ang_arr := jd.angles
    pos_arr := jd.positions
    depthmap_arr := depthmaps
    pointmap := cropped.map (fun c => c.2)
    orig_img_arr := origs
    segmented_img_arr := cropped.map (fun c => c.1)
    rois := rois
    intrin_depth := jd.intrin_depth
    intrin_color := jd.intrin_color
    depth_scale := jd.depth_scale }

/-- `Builder._save_full`.  The source opens the destination in h5py append
mode and calls `create_dataset` unconditionally, so when the file already
holds the datasets of an earlier build the first
`create_dataset('angles', ...)` raises and no readable container results;
`destExists` reports whether the destination `.h5` file already exists and
the collision is the `datasetNameExists` branch. -/
def saveFull (destExists : Bool) (st : BuilderState) (ver : ℚ) (now : ℕ)
    (elapsed : ℤ) : Except BuildError Container :=
  if destExists then .error .datasetNameExists
  else
    .ok { name := st.name
          version := ver
          length := st.length
          build_date := now
          compile_date := now
          compile_time := elapsed
          type := "full"
          original_resolution := imageShape (st.orig_img_arr.headD [])
          segmented_resolution := imageShape (st.segmented_img_arr.headD [])
          depth_intrinsics := st.intrin_depth
          color_intrinsics := st.intrin_color
          depth_scale := st.depth_scale
          angles := st.ang_arr
          positions := st.pos_arr
          depthmaps := st.depthmap_arr
          pointmaps := st.pointmap
          original := st.orig_img_arr
          segmented := st.segmented_img_arr
          rois := st.rois
          path_jsons := st.jsons
          path_depthmaps := st.maps
          path_images := st.imgs }

/-- `Builder.build_full`: scan the raw directory, load the JSONs, load and
segment the media, crop, and save.  The segmentation model and the `crop`
worker are the black-box parameters `segmenter` and `crop`; `nw` is
`workerCount()`. -/
def buildFull (cap : RawCapture) (segmenter : Image → Mask × Roi)
    (crop : DepthMap × Image × Mask × Roi → Image × PointMap)
    (nw : ℕ) (ver : ℚ) (dsName : String) (now : ℕ) (elapsed : ℤ)
    (destExists : Bool) : Except BuildError Container := do
  let (jsons, maps, imgs) ← scanFiles cap.files
  let jd ← loadJsonData (jsons.map cap.jsonContent)
  saveFull destExists (buildState cap segmenter crop nw dsName jsons maps imgs jd)
    ver now elapsed

/-! ## Subset (`Builder.build_subset` / `_read_full` / `_write_subset`) -/

/-- `Builder.build_subset` is `_read_full` followed by `_write_subset`.
`_read_full` opens the source in a `with` block and stores `file.attrs`
and the h5py dataset objects themselves on `self`; the block then closes
the file, so every stored handle belongs to a closed file.
`_write_subset` opens the destination and its first statement,
`file.attrs = self.attrs`, assigns to h5py's `attrs` — a read-only Python
property with no setter — which raises `AttributeError` before any
dataset is created (and the later fancy-indexed reads such as
`self.ang_arr[idxs]` would fail anyway, being reads of a closed file's
datasets).  `build_subset` therefore never produces a subset container;
only an empty destination file is left behind. -/
def buildSubset (src : Container) (sub_type : String) (idxs : List ℕ)
    (now : ℕ) : Except BuildError Container :=
  .error .attrsNotWritable

/-! ## Weld (`Builder.weld`) -/

/-- `np.vstack` applied to two one-dimensional arrays (the path manifests):
each is promoted to a single row and the rows are stacked, which requires
the two lengths to agree and otherwise raises. -/
def vstack1 (x y : List γ) : Except BuildError (List (List γ)) :=
  if x.length = y.length then .ok [x, y] else .error .vstackShapeMismatch

/-- What `assert a_attrs[attr] == b_attrs[attr]` does when the attribute
is a stored one-dimensional array (the two resolution attributes, written
from 3-element `.shape` tuples and returned by h5py as 3-element arrays):
a shape mismatch makes `==` collapse to the scalar `False`; a
single-element comparison array truth-tests to its element; an empty one
to `False`; and a multi-element comparison array cannot be truth-tested —
numpy raises `ValueError` (ambiguous truth). -/
def arrayTruth (x y : List ℕ) : Except BuildError Bool :=
  if x.length = y.length then
    if 1 < x.length then .error .ambiguousArrayTruth
    else if x.length = 1 then .ok (decide (x = y))
    else .ok false
  else .ok false

/-- `Builder.weld`.  The source loops over
`['version', 'original_resolution', 'segmented_resolution',
'depth_intrinsics', 'color_intrinsics', 'depth_scale']` asserting
`a_attrs[attribute] == b_attrs[attribute]` in that order.  `version`,
the two intrinsics identifiers and `depth_scale` are scalars, so their
asserts raise `AssertionError` (the spec's `IncompatibleDatasetsError`)
on inequality; the two resolution attributes are 3-element arrays, so
their asserts truth-test a multi-element comparison array and raise
numpy's ambiguous-truth `ValueError` — for every version-equal pair,
compatible or not.  Should every assert somehow pass (possible only for
degenerate resolution arrays of fewer than two elements), the per-frame
arrays are concatenated with `np.vstack`: the three path manifests are
one-dimensional, so their vstack requires equal source lengths; and
finally `self._save_full()` is called without `_save_full`'s required
`ver` argument, raising a `TypeError` before anything is written.  So
`weld` never produces an output container. -/
def weld (a b : Container) (dst_dir dsName : String) :
    Except BuildError Container := do
  if a.version = b.version then
    let t1 ← arrayTruth a.original_resolution b.original_resolution
    if t1 then
      let t2 ← arrayTruth a.segmented_resolution b.segmented_resolution
      if t2 then
        if a.depth_intrinsics = b.depth_intrinsics then
          if a.color_intrinsics = b.color_intrinsics then
            if a.depth_scale = b.depth_scale then
              let _ang := a.angles ++ b.angles
              let _pos := a.positions ++ b.positions
              let _dm := a.depthmaps ++ b.depthmaps
              let _pm := a.pointmaps ++ b.pointmaps
              let _og := a.original ++ b.original
              let _sg := a.segmented ++ b.segmented
              let _roi := a.rois ++ b.rois
              let _pjs ← vstack1 a.path_jsons b.path_jsons
              let _pdm ← vstack1 a.path_depthmaps b.path_depthmaps
              let _pim ← vstack1 a.path_images b.path_images
              .error .saveMissingVersionArg
            else .error .incompatibleDatasets
          else .error .incompatibleDatasets
        else .error .incompatibleDatasets
      else .error .incompatibleDatasets
    else .error .incompatibleDatasets
  else .error .incompatibleDatasets

/-- The container invariant: every per-frame array's leading dimension
equals the recorded `length` attribute. -/
def lengthInvariant (c : Container) : Prop :=
  c.angles.length = c.length ∧
  c.positions.length = c.length ∧
  c.depthmaps.length = c.length ∧
  c.pointmaps.length = c.length ∧
  c.original.length = c.length ∧
  c.segmented.length = c.length ∧
  c.rois.length = c.length ∧
  c.path_jsons.length = c.length ∧
  c.path_depthmaps.length = c.length ∧
  c.path_images.length = c.length

/-! ## Dataset validation and lookup (`robotpose/dataset.py`) -/

/-- `dataset_version = 1.0` in `robotpose/dataset.py`. -/
def dataset_version : ℚ := 1

/-- Python `int()` applied to a rational: truncation toward zero.  On a
rational in lowest terms with positive denominator this is truncating
integer division of the numerator by the denominator. -/
def pyInt (q : ℚ) : ℤ :=
  q.num / (q.den : ℤ)

/-- What `Dataset.validate` observes about one dataset directory: the seven
`os.path.isfile` probes and the `ds_ver` field of `ds.json` (`none` models
a missing key, which the source catches as `KeyError`). -/
structure DSDirFiles where
  ang : Bool
  ds : Bool
  ply : Bool
  seg_img : Bool
  og_img : Bool
  seg_vid : Bool
  og_vid : Bool
  ds_ver : Option ℚ
deriving DecidableEq

/-- `Dataset.validate`: a missing `ds_ver` key or a stored version whose
integer part differs from the current `dataset_version`'s integer part
invalidates the directory; otherwise validity is the conjunction of the
seven file-existence probes. -/
def validate (d : DSDirFiles) : Bool :=
  match d.ds_ver with
  | none => false
  | some v =>
    if pyInt v ≠ pyInt dataset_version then false
    else d.ang && d.ds && d.ply && d.seg_img && d.og_img && d.seg_vid && d.og_vid

/-- Python's `a in b` on strings: substring containment. -/
def pyIn (needle hay : String) : Bool :=
  decide (needle.toList <:+: hay.toList)

/-- One directory under the datasets root, as seen by `Dataset.__init__`:
its basename and what `validate` would observe in it. -/
structure DirEntry where
  nm : String
  files : DSDirFiles
deriving DecidableEq

/-- The four ways `Dataset.__init__` can resolve a name query. -/
inductive InitAction where
  | read (nm : String)
  | rebuild (nm : String)
  | compileRaw (nm : String)
  | failure
deriving DecidableEq

/-- The dataset-resolution logic of `Dataset.__init__`: scan the compiled
dataset directories in order and stop at the first whose basename contains
the query as a substring — reading it if it validates and rebuilding it
otherwise; only when no compiled directory name contains the query are the
raw capture directories scanned the same way; if those also fail the
constructor's final assertion fires. -/
def findDataset (query : String) (compiled : List DirEntry)
    (raw : List String) : InitAction :=
  match compiled.find? (fun e => pyIn query e.nm) with
  | some e => if validate e.files then .read e.nm else .rebuild e.nm
  | none =>
    match raw.find? (fun nm => pyIn query nm) with
    | some nm => .compileRaw nm
    | none => .failure

/-! ## Helper lemmas about the embedded operations -/

theorem except_bind_ok {ε γ δ : Type} (v : γ) (f : γ → Except ε δ) :
    (Except.ok v >>= f) = f v := rfl

theorem except_bind_error {ε γ δ : Type} (e : ε) (f : γ → Except ε δ) :
    (Except.error e >>= f : Except ε δ) = Except.error e := rfl

theorem scanFiles_ok_iff (files : List String) (js mp im : List String) :
    scanFiles files = .ok (js, mp, im) ↔
      js = files.filter (fun x => pyEndsWith x ".json") ∧
      mp = files.filter (fun x => pyEndsWith x ".npy") ∧
      im = files.filter (fun x => pyEndsWith x ".png") ∧
      js.length = mp.length ∧ mp.length = im.length := by
  simp only [scanFiles]
  split
  · rename_i hc
    simp only [Except.ok.injEq, Prod.mk.injEq]
    constructor
    · rintro ⟨h1, h2, h3⟩
      subst h1
      subst h2
      subst h3
      exact ⟨rfl, rfl, rfl, hc.1, hc.2⟩
    · rintro ⟨h1, h2, h3, _, _⟩
      exact ⟨h1.symm, h2.symm, h3.symm⟩
  · rename_i hc
    constructor
    · intro h
      exact absurd h (by simp)
    · rintro ⟨h1, h2, h3, h4, h5⟩
      subst h1
      subst h2
      subst h3
      exact absurd ⟨h4, h5⟩ hc

theorem scanFiles_error_iff (files : List String) :
    scanFiles files = .error .inconsistentCapture ↔
      ¬ ((files.filter (fun x => pyEndsWith x ".json")).length
          = (files.filter (fun x => pyEndsWith x ".npy")).length ∧
         (files.filter (fun x => pyEndsWith x ".npy")).length
          = (files.filter (fun x => pyEndsWith x ".png")).length) := by
  simp only [scanFiles]
  split
  · rename_i hc
    simp [hc]
  · rename_i hc
    simp [hc]

theorem loadJsonData_ok_iff (frames : List FrameJson) (jd : JsonData) :
    loadJsonData frames = .ok jd ↔
      (∀ fr ∈ frames, 6 ≤ fr.joints.length) ∧
      (frames.map (fun fr => fr.depth_scale)).dedup.length = 1 ∧
      (frames.map (fun fr => fr.intrin_depth)).dedup.length = 1 ∧
      (frames.map (fun fr => fr.intrin_color)).dedup.length = 1 ∧
      jd = { angles := frames.map (fun fr => (fr.joints.take 6).map (fun j => j.angle))
             positions := frames.map (fun fr => (fr.joints.take 6).map (fun j => j.position))
             depth_scale := (frames.map (fun fr => fr.depth_scale)).dedup.headD 0
             intrin_depth := (frames.map (fun fr => fr.intrin_depth)).dedup.headD ""
             intrin_color := (frames.map (fun fr => fr.intrin_color)).dedup.headD "" } := by
  simp only [loadJsonData]
  split
  · rename_i hall
    have hall2 : ∀ fr ∈ frames, 6 ≤ fr.joints.length := by
      intro fr hfr
      exact of_decide_eq_true (List.all_eq_true.mp hall fr hfr)
    split
    · rename_i hcam
      simp only [Except.ok.injEq]
      constructor
      · intro h
        exact ⟨hall2, hcam.1, hcam.2.1, hcam.2.2, h.symm⟩
      · rintro ⟨_, _, _, _, h⟩
        exact h.symm
    · rename_i hcam
      constructor
      · intro h
        exact absurd h (by simp)
      · rintro ⟨_, h1, h2, h3, _⟩
        exact absurd ⟨h1, h2, h3⟩ hcam
  · rename_i hall
    constructor
    · intro h
      exact absurd h (by simp)
    · rintro ⟨hj, _⟩
      exact absurd (List.all_eq_true.mpr (fun fr hfr => decide_eq_true (hj fr hfr))) hall

theorem loadJsonData_camera_error (frames : List FrameJson)
    (hall : ∀ fr ∈ frames, 6 ≤ fr.joints.length)
    (hcam : ¬ ((frames.map (fun fr => fr.depth_scale)).dedup.length = 1 ∧
               (frames.map (fun fr => fr.intrin_depth)).dedup.length = 1 ∧
               (frames.map (fun fr => fr.intrin_color)).dedup.length = 1)) :
    loadJsonData frames = .error .inconsistentCamera := by
  simp only [loadJsonData]
  rw [if_pos (List.all_eq_true.mpr (fun fr hfr => decide_eq_true (hall fr hfr)))]
  rw [if_neg hcam]

theorem length_one_eq_headD {γ : Type} (l : List γ) (d : γ) (h : l.length = 1) :
    l = [l.headD d] := by
  cases l with
  | nil => simp at h
  | cons x t =>
    cases t with
    | nil => rfl
    | cons y t2 => simp at h

/-! ## Concrete data used by witnesses and counterexamples -/

/-- A small well-formed 2-frame container. -/
def exContainer : Container :=
  { name := "set6"
    version := 1
    length := 2
    build_date := 10
    compile_date := 11
    compile_time := 5
    type := "full"
    original_resolution := [1, 1, 3]
    segmented_resolution := [1, 1, 3]
    depth_intrinsics := "depthA"
    color_intrinsics := "colorA"
    depth_scale := 2
    angles := [[1, 2, 3, 4, 5, 6], [7, 8, 9, 10, 11, 12]]
    positions := [List.replicate 6 (1, 1, 1), List.replicate 6 (2, 2, 2)]
    depthmaps := [[[5]], [[6]]]
    pointmaps := [[[(1, 2, 3)]], [[(4, 5, 6)]]]
    original := [[[(9, 9, 9)]], [[(8, 8, 8)]]]
    segmented := [[[(1, 1, 1)]], [[(2, 2, 2)]]]
    rois := [[0, 0, 1, 1], [0, 0, 1, 1]]
    path_jsons := ["a.json", "b.json"]
    path_depthmaps := ["a.npy", "b.npy"]
    path_images := ["a.png", "b.png"] }

/-- A 1-frame container with the same scalar metadata as `exContainer`. -/
def exContainerShort : Container :=
  { exContainer with
    length := 1
    angles := [[9, 9, 9, 9, 9, 9]]
    positions := [List.replicate 6 (3, 3, 3)]
    depthmaps := [[[7]]]
    pointmaps := [[[(7, 7, 7)]]]
    original := [[[(7, 7, 7)]]]
    segmented := [[[(7, 7, 7)]]]
    rois := [[0, 0, 1, 1]]
    path_jsons := ["c.json"]
    path_depthmaps := ["c.npy"]
    path_images := ["c.png"] }

/-- Like `exContainer` but with a different original resolution. -/
def exContainerOtherRes : Container :=
  { exContainer with original_resolution := [2, 2, 3] }

deriving instance DecidableEq for Except

instance (c : Container) : Decidable (lengthInvariant c) := by
  unfold lengthInvariant
  infer_instance

/-- C2: the claim describes the intended subset semantics, but the source
cannot perform them: `_write_subset`'s first statement,
`file.attrs = self.attrs`, assigns to h5py's read-only `attrs` property
and raises `AttributeError` before any dataset is written (and
`_read_full`'s stored arrays belong to a file its `with`-block has
already closed), so `build_subset` never produces a container — in
particular not the gathered, relabelled container the claim specifies,
shown here at the spec's own example index list. -/
theorem subset_write_always_fails :
    buildSubset exContainer "train" [2, 0, 4] 42
      = .error .attrsNotWritable ∧
    ∀ (src : Container) (label : String) (idxs : List ℕ) (now : ℕ),
      buildSubset src label idxs now = .error .attrsNotWritable :=
  ⟨rfl, fun _ _ _ _ => rfl⟩

/-! ## Weld claim support -/

theorem weld_ne_ok (a b : Container) (d n : String) :
    ∃ e, weld a b d n = .error e := by
  simp only [weld]
  by_cases hv : a.version = b.version
  · rw [if_pos hv]
    rcases h1 : arrayTruth a.original_resolution b.original_resolution
      with e1 | t1
    · exact ⟨e1, rfl⟩
    · simp only [except_bind_ok]
      cases t1
      · exact ⟨.incompatibleDatasets, rfl⟩
      · rcases h2 : arrayTruth a.segmented_resolution b.segmented_resolution
          with e2 | t2
        · exact ⟨e2, rfl⟩
        · simp only [except_bind_ok]
          cases t2
          · exact ⟨.incompatibleDatasets, rfl⟩
          · by_cases hdi : a.depth_intrinsics = b.depth_intrinsics
            · rw [if_pos hdi]
              by_cases hci : a.color_intrinsics = b.color_intrinsics
              · rw [if_pos hci]
                by_cases hds : a.depth_scale = b.depth_scale
                · rw [if_pos hds]
                  rcases h3 : vstack1 a.path_jsons b.path_jsons with e3 | v3
                  · exact ⟨e3, rfl⟩
                  · rcases h4 : vstack1 a.path_depthmaps b.path_depthmaps
                      with e4 | v4
                    · exact ⟨e4, rfl⟩
                    · rcases h5 : vstack1 a.path_images b.path_images
                        with e5 | v5
                      · exact ⟨e5, rfl⟩
                      · exact ⟨.saveMissingVersionArg, rfl⟩
                · rw [if_neg hds]
                  exact ⟨.incompatibleDatasets, rfl⟩
              · rw [if_neg hci]
                exact ⟨.incompatibleDatasets, rfl⟩
            · rw [if_neg hdi]
              exact ⟨.incompatibleDatasets, rfl⟩
  · rw [if_neg hv]
    exact ⟨.incompatibleDatasets, rfl⟩

/-- C3: the claim that `weld` writes a new container of length `a + b` is
right about the intent, but the source can never write it: for every
version-equal pair — including the two concrete inputs here, a compatible
2-frame/1-frame pair and a container welded with itself — the assert on
`original_resolution` truth-tests a 3-element comparison array and raises
numpy's ambiguous-truth `ValueError` at the second loop iteration, before
any vstack or save is reached; for version-unequal pairs the `version`
assert raises; and on the residual degenerate paths the path-manifest
vstack or the `ver`-less `_save_full()` call raises.  No invocation of
`weld` ever returns a container. -/
theorem weld_never_writes :
    weld exContainer exContainerShort "dest" "welded"
      = .error .ambiguousArrayTruth ∧
    weld exContainer exContainer "dest" "welded"
      = .error .ambiguousArrayTruth ∧
    ∀ (a b : Container) (d n : String), ∃ e, weld a b d n = .error e :=
  ⟨by decide, by decide, weld_ne_ok⟩

/-- Like `exContainer` but recording format version 2. -/
def exContainerV2 : Container :=
  { exContainer with version := 2 }

/-- C4: the claim states the intended compatibility gate, but the code
cannot implement it: only the scalar `version` assert can raise the
incompatibility error, because the resolution asserts truth-test
3-element comparison arrays and raise numpy's ambiguous-truth
`ValueError` for every version-equal pair — fully compatible pairs
included.  Concretely: welding a container with itself and welding two
containers that differ only in `original_resolution` both raise the
`ValueError`, and only a version mismatch raises the assertion error the
spec calls `IncompatibleDatasetsError`. -/
theorem weld_compatibility_check_broken :
    weld exContainer exContainer "dest" "welded"
      = .error .ambiguousArrayTruth ∧
    weld exContainer exContainerOtherRes "dest" "welded"
      = .error .ambiguousArrayTruth ∧
    weld exContainer exContainerV2 "dest" "welded"
      = .error .incompatibleDatasets :=
  ⟨by decide, by decide, by decide⟩

/-! ## Full-build claim support -/

theorem saveFull_ok_elim (prev : Bool) (st : BuilderState) (ver : ℚ)
    (now : ℕ) (el : ℤ) (c : Container)
    (h : saveFull prev st ver now el = .ok c) :
    prev = false ∧
    c.length = st.length ∧ c.angles = st.ang_arr ∧ c.positions = st.pos_arr ∧
    c.depthmaps = st.depthmap_arr ∧ c.pointmaps = st.pointmap ∧
    c.original = st.orig_img_arr ∧ c.segmented = st.segmented_img_arr ∧
    c.rois = st.rois ∧ c.path_jsons = st.jsons ∧ c.path_depthmaps = st.maps ∧
    c.path_images = st.imgs ∧ c.depth_scale = st.depth_scale ∧
    c.depth_intrinsics = st.intrin_depth ∧
    c.color_intrinsics = st.intrin_color := by
  simp only [saveFull] at h
  split at h
  · exact absurd h (by simp)
  · rename_i hprev
    injection h with h
    subst h
    exact ⟨by simpa using hprev, rfl, rfl, rfl, rfl, rfl, rfl, rfl, rfl, rfl,
      rfl, rfl, rfl, rfl, rfl⟩

theorem buildFull_ok_elim (cap : RawCapture) (segm : Image → Mask × Roi)
    (crop : DepthMap × Image × Mask × Roi → Image × PointMap)
    (nw : ℕ) (ver : ℚ) (nm : String) (now : ℕ) (el : ℤ) (prev : Bool)
    (c : Container)
    (h : buildFull cap segm crop nw ver nm now el prev = .ok c) :
    ∃ js mp im jd,
      scanFiles cap.files = .ok (js, mp, im) ∧
      loadJsonData (js.map cap.jsonContent) = .ok jd ∧
      saveFull prev (buildState cap segm crop nw nm js mp im jd)
        ver now el = .ok c := by
  simp only [buildFull] at h
  rcases hs : scanFiles cap.files with e | t
  · rw [hs] at h
    simp only [except_bind_error] at h
    exact absurd h (by simp)
  · obtain ⟨js, mp, im⟩ := t
    rw [hs] at h
    simp only [except_bind_ok] at h
    rcases hl : loadJsonData (js.map cap.jsonContent) with e | jd
    · rw [hl] at h
      simp only [except_bind_error] at h
      exact absurd h (by simp)
    · rw [hl] at h
      simp only [except_bind_ok] at h
      exact ⟨js, mp, im, jd, rfl, hl, h⟩

/-- The per-frame JSON documents `_load_json_data` parses: the walked
`.json` paths in order, read through the capture's content map. -/
def capFrames (cap : RawCapture) : List FrameJson :=
  (cap.files.filter (fun x => pyEndsWith x ".json")).map cap.jsonContent

/-- C5: when the scan succeeds and every JSON has its six joints, a raw
capture whose JSONs do not all record the same `depth_scale`, depth
intrinsics and color intrinsics (each collected set must be a singleton)
makes the build fail with the inconsistent-camera error and produce no
container; when the three sets are singletons, any produced container
records exactly the three unique values. -/
theorem camera_uniformity_enforced (cap : RawCapture)
    (segm : Image → Mask × Roi)
    (crop : DepthMap × Image × Mask × Roi → Image × PointMap)
    (nw : ℕ) (ver : ℚ) (nm : String) (now : ℕ) (el : ℤ) (prev : Bool)
    (hcount : (cap.files.filter (fun x => pyEndsWith x ".json")).length
        = (cap.files.filter (fun x => pyEndsWith x ".npy")).length ∧
      (cap.files.filter (fun x => pyEndsWith x ".npy")).length
        = (cap.files.filter (fun x => pyEndsWith x ".png")).length)
    (hjoints : ∀ fr ∈ capFrames cap, 6 ≤ fr.joints.length) :
    (¬ (((capFrames cap).map (fun fr => fr.depth_scale)).dedup.length = 1 ∧
        ((capFrames cap).map (fun fr => fr.intrin_depth)).dedup.length = 1 ∧
        ((capFrames cap).map (fun fr => fr.intrin_color)).dedup.length = 1) →
      buildFull cap segm crop nw ver nm now el prev
        = .error .inconsistentCamera) ∧
    (∀ c, buildFull cap segm crop nw ver nm now el prev = .ok c →
      ((capFrames cap).map (fun fr => fr.depth_scale)).dedup
        = [c.depth_scale] ∧
      ((capFrames cap).map (fun fr => fr.intrin_depth)).dedup
        = [c.depth_intrinsics] ∧
      ((capFrames cap).map (fun fr => fr.intrin_color)).dedup
        = [c.color_intrinsics]) := by
  have hscan : scanFiles cap.files
      = .ok (cap.files.filter (fun x => pyEndsWith x ".json"),
             cap.files.filter (fun x => pyEndsWith x ".npy"),
             cap.files.filter (fun x => pyEndsWith x ".png")) :=
    (scanFiles_ok_iff _ _ _ _).mpr ⟨rfl, rfl, rfl, hcount.1, hcount.2⟩
  constructor
  · intro hcam
    have hload := loadJsonData_camera_error (capFrames cap) hjoints hcam
    simp only [capFrames] at hload
    simp only [buildFull, hscan]
    simp only [except_bind_ok, hload, except_bind_error]
  · intro c h
    obtain ⟨js, mp, im, jd, hs, hl, hsave⟩ :=
      buildFull_ok_elim cap segm crop nw ver nm now el prev c h
    obtain ⟨hjs, hmp, him, _, _⟩ := (scanFiles_ok_iff _ _ _ _).mp hs
    subst hjs
    obtain ⟨_, hd1, hd2, hd3, hjd⟩ := (loadJsonData_ok_iff _ _).mp hl
    obtain ⟨_, _, _, _, _, _, _, _, _, _, _, _, hds, hdi, hdc⟩ :=
      saveFull_ok_elim _ _ _ _ _ _ hsave
    subst hjd
    have eds : c.depth_scale
        = ((capFrames cap).map (fun fr => fr.depth_scale)).dedup.headD 0 :=
      hds.trans rfl
    have edi : c.depth_intrinsics
        = ((capFrames cap).map (fun fr => fr.intrin_depth)).dedup.headD "" :=
      hdi.trans rfl
    have edc : c.color_intrinsics
        = ((capFrames cap).map (fun fr => fr.intrin_color)).dedup.headD "" :=
      hdc.trans rfl
    refine ⟨?_, ?_, ?_⟩
    · rw [eds]
      exact length_one_eq_headD _ _ hd1
    · rw [edi]
      exact length_one_eq_headD _ _ hd2
    · rw [edc]
      exact length_one_eq_headD _ _ hd3

theorem cropBatched_100 (f : α → β) (z : β) (nw : ℕ) (inputs : List α) :
    cropBatched f z nw 100 inputs = inputs.map f :=
  cropBatched_eq_map f z nw 100 (by norm_num) inputs

/-- A 6-joint record used by the concrete raw captures. -/
def exJoints : List JointInfo :=
  [⟨1, (0, 0, 0)⟩, ⟨2, (0, 0, 1)⟩, ⟨3, (0, 1, 0)⟩,
   ⟨4, (0, 1, 1)⟩, ⟨5, (1, 0, 0)⟩, ⟨6, (1, 0, 1)⟩]

/-- A consistent 2-frame raw capture. -/
def exCap : RawCapture :=
  { files := ["f0.json", "f0.npy", "f0.png", "f1.json", "f1.npy", "f1.png"]
    jsonContent := fun _ => ⟨3, "dint", "cint", exJoints⟩
    depthContent := fun p => if p = "f0.npy" then [[7]] else [[9]]
    imageContent := fun p => if p = "f0.png" then [[(1, 2, 3)]] else [[(4, 5, 6)]] }

/-- Like `exCap`, but the two frames record different `depth_scale`s. -/
def exCapBad : RawCapture :=
  { exCap with jsonContent := fun p =>
      if p = "f0.json" then ⟨3, "dint", "cint", exJoints⟩
      else ⟨4, "dint", "cint", exJoints⟩ }

/-- A raw capture with a JSON/image pair but no depth map. -/
def exCapMismatch : RawCapture :=
  { exCap with files := ["f0.json", "f0.png"] }

/-- A concrete stand-in for the black-box segmentation model. -/
def exSegmenter : Image → Mask × Roi :=
  fun _ => ([[true]], [0, 0, 1, 1])

/-- A concrete stand-in for the black-box `crop` worker. -/
def exCrop : DepthMap × Image × Mask × Roi → Image × PointMap :=
  fun inp => (inp.2.1, inp.1.map (fun row => row.map (fun v => (v, v, v))))

/-- Witness for C5: two frames recording depth scales 3 and 4 make the
build fail with the inconsistent-camera error. -/
theorem camera_uniformity_enforced_witness :
    buildFull exCapBad exSegmenter exCrop 2 1 "setbad" 5 3 false
      = .error .inconsistentCamera :=
  (camera_uniformity_enforced exCapBad exSegmenter exCrop 2 1 "setbad" 5 3
    false (by decide) (by decide)).1 (by decide)

theorem buildFull_ok_lengthInvariant (cap : RawCapture)
    (segm : Image → Mask × Roi)
    (crop : DepthMap × Image × Mask × Roi → Image × PointMap)
    (nw : ℕ) (ver : ℚ) (nm : String) (now : ℕ) (el : ℤ) (prev : Bool)
    (c : Container)
    (h : buildFull cap segm crop nw ver nm now el prev = .ok c) :
    lengthInvariant c := by
  obtain ⟨js, mp, im, jd, hs, hl, hsave⟩ :=
    buildFull_ok_elim cap segm crop nw ver nm now el prev c h
  obtain ⟨hjs, hmp, him, hjm, hmi⟩ := (scanFiles_ok_iff _ _ _ _).mp hs
  obtain ⟨_, _, _, _, hjd⟩ := (loadJsonData_ok_iff _ _).mp hl
  obtain ⟨_, hlen, ha, hp, hdm, hpm, ho, hsg, hr, hpj, hpd, hpi, _, _, _⟩ :=
    saveFull_ok_elim _ _ _ _ _ _ hsave
  have hca : jd.angles.length = js.length := by rw [hjd]; simp
  have hcp : jd.positions.length = js.length := by rw [hjd]; simp
  unfold lengthInvariant
  rw [ha, hp, hdm, hpm, ho, hsg, hr, hpj, hpd, hpi, hlen]
  simp only [buildState, cropBatched_100, List.length_map, List.length_zip]
  refine ⟨?_, ?_, ?_, ?_, ?_, ?_, ?_, ?_, ?_, ?_⟩ <;> first
  | trivial
  | omega

theorem buildSubset_ok_lengthInvariant (src : Container) (label : String)
    (idxs : List ℕ) (now : ℕ) (c : Container)
    (h : buildSubset src label idxs now = .ok c) : lengthInvariant c := by
  exact absurd h (by simp [buildSubset])

/-- C6: every container the builder writes — by a full build, a subset, or
a weld — has every per-frame array's leading dimension equal to its
recorded `length` attribute.  For full builds this is proved from the
scanner's count assertion and the per-frame pipeline; for subset and weld
it holds vacuously, because the source's `build_subset` and `weld` never
complete a write (see C2 and C3). -/
theorem built_length_invariant :
    (∀ (cap : RawCapture) (segm : Image → Mask × Roi)
       (crop : DepthMap × Image × Mask × Roi → Image × PointMap)
       (nw : ℕ) (ver : ℚ) (nm : String) (now : ℕ) (el : ℤ) (prev : Bool)
       (c : Container),
       buildFull cap segm crop nw ver nm now el prev = .ok c →
         lengthInvariant c) ∧
    (∀ (src : Container) (label : String) (idxs : List ℕ) (now : ℕ)
       (c : Container),
       buildSubset src label idxs now = .ok c → lengthInvariant c) ∧
    (∀ (a b : Container) (d n : String) (c : Container),
       weld a b d n = .ok c → lengthInvariant c) :=
  ⟨buildFull_ok_lengthInvariant, buildSubset_ok_lengthInvariant,
   fun a b d n c h => by
     obtain ⟨e, he⟩ := weld_ne_ok a b d n
     rw [he] at h
     exact absurd h (by simp)⟩

/-- Witness for C6: the invariant holds on a concrete full build (the
only build operation of the source that can complete a write). -/
theorem built_length_invariant_witness :
    ∃ c, buildFull exCap exSegmenter exCrop 2 1 "set6" 100 7 false = .ok c ∧
      lengthInvariant c :=
  ⟨_, rfl,
    built_length_invariant.1 exCap exSegmenter exCrop 2 1 "set6" 100 7
      false _ rfl⟩

/-- C7: the claim is right about the intent (rebuilding an unchanged raw
capture is deterministic and should succeed), but `_save_full` opens the
destination in h5py append mode and unconditionally `create_dataset`s, so
the second build into the same destination raises a name-collision error
instead of succeeding: on the concrete capture, the first build returns a
container and the immediate rebuild fails. -/
theorem rebuild_same_destination_collides :
    (∃ c, buildFull exCap exSegmenter exCrop 2 1 "set6" 100 7 false = .ok c) ∧
    buildFull exCap exSegmenter exCrop 2 1 "set6" 200 9 true
      = .error .datasetNameExists := by
  constructor
  · exact ⟨_, rfl⟩
  · rfl

/-- A directory in which all seven files exist and `ds.json` records the
current version. -/
def validFilesEx : DSDirFiles :=
  ⟨true, true, true, true, true, true, true, some 1⟩

/-- A directory whose `ds.json` records major version 2. -/
def staleFilesEx : DSDirFiles :=
  { validFilesEx with ds_ver := some 2 }

/-- C8: `validate` accepts a dataset directory only when the stored
version's integer (major) part equals the current `dataset_version`'s
integer part; a differing major version or a missing version field is
reported invalid, and in `Dataset.__init__` an invalid first match
triggers a rebuild instead of a read. -/
theorem validate_version_gate :
    (∀ d : DSDirFiles, validate d = true →
       ∃ v, d.ds_ver = some v ∧ pyInt v = pyInt dataset_version) ∧
    (∀ d : DSDirFiles,
       (d.ds_ver = none ∨
        ∃ v, d.ds_ver = some v ∧ pyInt v ≠ pyInt dataset_version) →
       validate d = false) ∧
    (∀ (q : String) (comp : List DirEntry) (raw : List String) (e : DirEntry),
       comp.find? (fun d => pyIn q d.nm) = some e →
       validate e.files = false →
       findDataset q comp raw = .rebuild e.nm) := by
  refine ⟨?_, ?_, ?_⟩
  · intro d h
    rcases hv : d.ds_ver with _ | v
    · simp [validate, hv] at h
    · by_cases hp : pyInt v ≠ pyInt dataset_version
      · simp [validate, hv, hp] at h
      · exact ⟨v, rfl, not_not.mp hp⟩
  · intro d hd
    rcases hd with hnone | ⟨v, hv, hne⟩
    · simp [validate, hnone]
    · simp [validate, hv, hne]
  · intro q comp raw e hfind hval
    simp [findDataset, hfind, hval]

/-- Witness for C8: a directory with all files present but version 2.0 is
invalid and its lookup triggers a rebuild. -/
theorem validate_version_gate_witness :
    validate staleFilesEx = false ∧
    findDataset "set9" [⟨"set9", staleFilesEx⟩] [] = .rebuild "set9" := by
  have h1 : validate staleFilesEx = false :=
    validate_version_gate.2.1 staleFilesEx (Or.inr ⟨2, rfl, by decide⟩)
  exact ⟨h1, validate_version_gate.2.2 "set9" [⟨"set9", staleFilesEx⟩] []
    ⟨"set9", staleFilesEx⟩ (by decide) h1⟩

/-- C9: the scanner fails with the inconsistent-capture error — and the
whole build surfaces it before any loading or writing — unless the counts
of JSON, depth-map, and image files agree; when they agree the recorded
length is that common count, and the per-frame data of a produced
container pairs the three path lists purely positionally, in walk order:
frame data at index `k` comes from the `k`-th JSON path, `k`-th depth-map
path, and `k`-th image path. -/
theorem scanner_triple_count_check (cap : RawCapture)
    (segm : Image → Mask × Roi)
    (crop : DepthMap × Image × Mask × Roi → Image × PointMap)
    (nw : ℕ) (ver : ℚ) (nm : String) (now : ℕ) (el : ℤ) (prev : Bool) :
    (¬ ((cap.files.filter (fun x => pyEndsWith x ".json")).length
          = (cap.files.filter (fun x => pyEndsWith x ".npy")).length ∧
        (cap.files.filter (fun x => pyEndsWith x ".npy")).length
          = (cap.files.filter (fun x => pyEndsWith x ".png")).length) →
       scanFiles cap.files = .error .inconsistentCapture ∧
       buildFull cap segm crop nw ver nm now el prev
         = .error .inconsistentCapture) ∧
    (∀ c, buildFull cap segm crop nw ver nm now el prev = .ok c →
       c.length = (cap.files.filter (fun x => pyEndsWith x ".png")).length ∧
       c.path_jsons = cap.files.filter (fun x => pyEndsWith x ".json") ∧
       c.path_depthmaps = cap.files.filter (fun x => pyEndsWith x ".npy") ∧
       c.path_images = cap.files.filter (fun x => pyEndsWith x ".png") ∧
       c.original = (cap.files.filter (fun x => pyEndsWith x ".png")).map
         cap.imageContent ∧
       c.depthmaps = ((cap.files.filter (fun x => pyEndsWith x ".npy")).map
         cap.depthContent).map (fun dm => scaleDepthMap dm c.depth_scale) ∧
       c.angles = ((cap.files.filter (fun x => pyEndsWith x ".json")).map
         cap.jsonContent).map
           (fun fr => (fr.joints.take 6).map (fun j => j.angle))) := by
  constructor
  · intro hne
    have hserr := (scanFiles_error_iff cap.files).mpr hne
    refine ⟨hserr, ?_⟩
    simp only [buildFull, hserr, except_bind_error]
  · intro c h
    obtain ⟨js, mp, im, jd, hs, hl, hsave⟩ :=
      buildFull_ok_elim cap segm crop nw ver nm now el prev c h
    obtain ⟨hjs, hmp, him, _, _⟩ := (scanFiles_ok_iff _ _ _ _).mp hs
    subst hjs
    subst hmp
    subst him
    obtain ⟨_, _, _, _, hjd⟩ := (loadJsonData_ok_iff _ _).mp hl
    obtain ⟨_, hlen, ha, _, hdm, _, ho, _, _, hpj, hpd, hpi, hds, _, _⟩ :=
      saveFull_ok_elim _ _ _ _ _ _ hsave
    subst hjd
    refine ⟨hlen.trans rfl, hpj.trans rfl, hpd.trans rfl, hpi.trans rfl,
      ho.trans rfl, ?_, ha.trans rfl⟩
    rw [hdm, hds]
    rfl

/-- Witness for C9: a capture holding one JSON and one image but no depth
map is rejected by the scanner before any load. -/
theorem scanner_triple_count_check_witness :
    scanFiles exCapMismatch.files = .error .inconsistentCapture ∧
    buildFull exCapMismatch exSegmenter exCrop 2 1 "bad" 1 1 false
      = .error .inconsistentCapture :=
  (scanner_triple_count_check exCapMismatch exSegmenter exCrop 2 1 "bad" 1 1
    false).1 (by decide)

/-- C10: opening a dataset by name selects the first directory, in scan
order, whose name contains the query as a substring (an exact match is not
required, so query `set1` can load directory `set10`), and the constructor
fails only when no compiled or raw directory name contains the query. -/
theorem dataset_lookup_substring (q : String) (comp : List DirEntry)
    (raw : List String) :
    (∀ e : DirEntry, comp.find? (fun e => pyIn q e.nm) = some e →
       (q.toList <:+: e.nm.toList) ∧
       (findDataset q comp raw = .read e.nm ∨
        findDataset q comp raw = .rebuild e.nm)) ∧
    (findDataset q comp raw = .failure ↔
       (∀ e ∈ comp, ¬ (q.toList <:+: e.nm.toList)) ∧
       (∀ nm ∈ raw, ¬ (q.toList <:+: nm.toList))) := by
  constructor
  · intro e hfind
    constructor
    · simpa [pyIn] using List.find?_some hfind
    · simp only [findDataset, hfind]
      by_cases hv : validate e.files
      · left
        simp [hv]
      · right
        simp [hv]
  · rcases hc : comp.find? (fun e => pyIn q e.nm) with _ | e
    · rcases hr : raw.find? (fun nm => pyIn q nm) with _ | nm
      · simp only [findDataset, hc, hr]
        constructor
        · intro _
          constructor
          · intro e he hinf
            exact (List.find?_eq_none.mp hc e he) (by simpa [pyIn] using hinf)
          · intro nm hnm hinf
            exact (List.find?_eq_none.mp hr nm hnm) (by simpa [pyIn] using hinf)
        · intro _
          trivial
      · simp only [findDataset, hc, hr]
        constructor
        · intro h
          exact absurd h (by simp)
        · rintro ⟨_, hall⟩
          have hinf : q.toList <:+: nm.toList := by
            simpa [pyIn] using List.find?_some hr
          exact absurd hinf (hall nm (List.mem_of_find?_eq_some hr))
    · simp only [findDataset, hc]
      constructor
      · intro h
        by_cases hv : validate e.files <;> simp [hv] at h
      · rintro ⟨hall, _⟩
        have hinf : q.toList <:+: e.nm.toList := by
          simpa [pyIn] using List.find?_some hc
        exact absurd hinf (hall e (List.mem_of_find?_eq_some hc))

/-- Witness for C10: the query `set1` selects the earlier directory
`set10` by substring containment even though an exact `set1` directory
appears later in scan order. -/
theorem dataset_lookup_substring_witness :
    ("set1".toList <:+: "set10".toList) ∧
    (findDataset "set1" [⟨"set10", validFilesEx⟩, ⟨"set1", validFilesEx⟩] []
        = .read "set10" ∨
     findDataset "set1" [⟨"set10", validFilesEx⟩, ⟨"set1", validFilesEx⟩] []
        = .rebuild "set10") :=
  (dataset_lookup_substring "set1"
    [⟨"set10", validFilesEx⟩, ⟨"set1", validFilesEx⟩] []).1
    ⟨"set10", validFilesEx⟩ (by decide)
